import Mathlib

/-!
Verification of the sessionlibrary NestJS audit/activity-log libraries.

The development shallowly embeds:
* the JavaScript value distinctions the code relies on (`undefined`, `null`,
  strings, truthiness),
* the CLS store used by `nestjs-cls` (`libs/audit`),
* `AuditSubscriber.beforeInsert` / `beforeUpdate` (`libs/audit/src/audit.subscriber.ts`),
* `ClsUserInterceptor.intercept` (`libs/audit/src/audit.module.ts`),
* `ActivityLogInterceptor.intercept` (`libs/log/src/log.middleware.ts`),
* `LogRedisService.publishEvent` and its subscriber message handler
  (`log-redis.service.ts`),
* `InsertLogSniffer.handleLogEvent` (`libs/session-sniffer/src/session-sniffer.insert.ts`),
  including the Elasticsearch index-name computation from the UTC date.

Numbers coming from `performance.now()` and epoch milliseconds are modelled as
natural numbers of milliseconds.
-/

/-- Model of a JavaScript value of static type `string | null | undefined`,
the only value shapes the audited code stores and tests. -/
inductive JSString where
  | undefined
  | null
  | str (s : String)
deriving DecidableEq, Repr

/-- JavaScript truthiness restricted to `JSString`: `undefined`, `null` and
the empty string are falsy, every other string is truthy. -/
def JSString.truthy : JSString → Bool
  | .undefined => false
  | .null => false
  | .str s => s ≠ ""

/-- The JavaScript `a || b` operator at type `string`, as used in
`req.user?.id || 'ANONYMOUS'` in `log.middleware.ts`. -/
def jsOrDefault (v : JSString) (dflt : String) : String :=
  match v with
  | .str s => if s = "" then dflt else s
  | _ => dflt

/-- The JavaScript nullish coalescing `a ?? b` at the types used in
`this.cls.set('userId', userId ?? null)` in `audit.module.ts`. -/
def jsNullishOrNull (v : JSString) : JSString :=
  match v with
  | .undefined => .null
  | .null => .null
  | .str s => .str s

/-! ## The CLS store (`nestjs-cls`)

The audited code only ever stores the single key `'userId'`, so the store is
modelled as an optional entry for that key: `none` models a context in which
the key was never set (`cls.get('userId')` then yields `undefined`). -/

/-- The per-request CLS store, restricted to the single key `'userId'`
actually used by the libraries. -/
structure ClsStore where
  userId : Option JSString
deriving DecidableEq, Repr

/-- `cls.get('userId')`: the stored value, or `undefined` when the key is
absent. -/
def ClsStore.getUserId (s : ClsStore) : JSString :=
  s.userId.getD .undefined

/-! ## `AuditSubscriber` (`libs/audit/src/audit.subscriber.ts`)

TypeORM hands the hooks an event whose `entity` may be absent; a record is
modelled with presence flags for the two attribution fields (the source tests
`'createdBy' in event.entity`) plus an opaque remainder standing for all other
fields of the record. -/

/-- Model of a TypeORM entity as seen by `AuditSubscriber`: whether each
attribution field is declared, its current value, and an opaque stand-in for
every other field of the record. -/
structure EntityRec where
  hasCreatedBy : Bool
  hasUpdatedBy : Bool
  createdBy : JSString
  updatedBy : JSString
  rest : String
deriving DecidableEq, Repr

/-- `AuditSubscriber.beforeInsert` (audit.subscriber.ts:23-47): reads
`userId` from CLS; if falsy, returns without touching the entity; otherwise
sets `createdBy` and `updatedBy` to it on the entity when those fields are
declared. The whole body is wrapped in try/catch in the source, so the hook
always returns normally; the embedding is a total function. -/
def beforeInsert (cls : ClsStore) (entity : Option EntityRec) : Option EntityRec :=
  let userId := cls.getUserId
  if ¬ userId.truthy then entity
  else
    match entity with
    | none => none
    | some e =>
        let e := if e.hasCreatedBy then { e with createdBy := userId } else e
        let e := if e.hasUpdatedBy then { e with updatedBy := userId } else e
        some e

/-- `AuditSubscriber.beforeUpdate` (audit.subscriber.ts:49-69): same guard,
but only `updatedBy` is ever assigned. -/
def beforeUpdate (cls : ClsStore) (entity : Option EntityRec) : Option EntityRec :=
  let userId := cls.getUserId
  if ¬ userId.truthy then entity
  else
    match entity with
    | none => none
    | some e =>
        some (if e.hasUpdatedBy then { e with updatedBy := userId } else e)

/-! ## `ClsUserInterceptor` (`libs/audit/src/audit.module.ts`) -/

/-- `ClsUserInterceptor.intercept` body (audit.module.ts:35-54): inside a
fresh CLS run, the host-supplied extractor is called and
`cls.set('userId', userId ?? null)` stores its result, nullish-coalesced to
`null`. The function returns the CLS store of the new context. -/
def clsUserIntercept (extractorResult : JSString) : ClsStore :=
  { userId := some (jsNullishOrNull extractorResult) }

/-- `AuditService.runWithUser` context construction (audit.service.ts:14-19):
`cls.run` opens a fresh store and `cls.set('userId', userId)` stores the
given actor id. -/
def runWithUserStore (userId : String) : ClsStore :=
  { userId := some (.str userId) }

/-! ## `ActivityLogInterceptor` (`libs/log/src/log.middleware.ts`)

`performance.now()` values are modelled as natural milliseconds; the wrapped
handler's outcome is modelled explicitly.  The source pipes the handler
through `tap(() => { ... })`: a `tap` given a bare function registers it as
the next-notification callback only, so it runs when the handler emits a
response and does not run when the handler's observable errors. -/

/-- Shape of the request fields the interceptor reads: `req.user?.id`
(a `JSString`, `undefined` when there is no user or no id), `req.originalUrl`
and `req.method`. -/
structure Req where
  userId : JSString
  originalUrl : String
  method : String
deriving DecidableEq, Repr

/-- The event payload (`ActivityLogPayload` in log.middleware.ts:17-22).
`responseTimeMs` is the modelled millisecond clock difference. -/
structure ActivityLogPayload where
  userId : String
  url : String
  method : String
  responseTimeMs : Nat
deriving DecidableEq, Repr

/-- Outcome of the wrapped handler observable: it either emits a response
(success) or errors. -/
inductive Outcome where
  | success
  | error
deriving DecidableEq, Repr

/-- Character-wise upper-casing, the model of JavaScript
`String.prototype.toUpperCase` on the ASCII method names at stake. -/
def jsToUpperCase (s : String) : String :=
  ⟨s.data.map Char.toUpper⟩

/-- Payload construction in the `tap` callback (log.middleware.ts:45-52):
`userId` is `req.user?.id || 'ANONYMOUS'`, and `responseTimeMs` is the
elapsed clock. -/
def buildPayload (req : Req) (responseTimeMs : Nat) : ActivityLogPayload :=
  { userId := jsOrDefault req.userId "ANONYMOUS"
    url := req.originalUrl
    method := req.method
    responseTimeMs := responseTimeMs }

/-- What one interception delivers where: the payloads emitted on the local
EventBus (`eventEmitter.emit`) at the point of original construction, and the
payloads handed to `redisService.publishEvent`. -/
structure EmitResult where
  localEmits : List ActivityLogPayload
  redisPublishes : List ActivityLogPayload
deriving DecidableEq, Repr

/-- The `tap` next-callback of `ActivityLogInterceptor.intercept`
(log.middleware.ts:42-68): builds the payload, and for methods other than
`GET` (upper-cased compare) either publishes to Redis — when the optional
`redisService` is injected — or emits on the local EventBus; never both. -/
def interceptTap (redisConfigured : Bool) (req : Req) (start finish : Nat) :
    EmitResult :=
  let responseTimeMs := finish - start
  let payload := buildPayload req responseTimeMs
  if jsToUpperCase req.method ≠ "GET" then
    if redisConfigured then
      { localEmits := [], redisPublishes := [payload] }
    else
      { localEmits := [payload], redisPublishes := [] }
  else
    { localEmits := [], redisPublishes := [] }

/-- `ActivityLogInterceptor.intercept` (log.middleware.ts:37-71): the
next-only `tap` callback runs exactly when the wrapped handler succeeds; on
an error exit nothing is built or emitted.  `SessionSnifferService.intercept`
(session-sniffer.service.ts) is the same code with `redisConfigured = false`. -/
def intercept (redisConfigured : Bool) (req : Req) (start finish : Nat)
    (outcome : Outcome) : EmitResult :=
  match outcome with
  | .success => interceptTap redisConfigured req start finish
  | .error => { localEmits := [], redisPublishes := [] }

/-- All payloads built by one interception, wherever they were delivered. -/
def EmitResult.built (r : EmitResult) : List ActivityLogPayload :=
  r.localEmits ++ r.redisPublishes

/-! ## Context propagation (`nestjs-cls` / `AsyncLocalStorage`)

Modelled from the spec: the propagation mechanism itself (`ClsService.run`,
backed by Node's `AsyncLocalStorage`) is an external dependency whose code is
not under the sources; spec §4.1 specifies it: `runWith` makes a fresh
context active for the callback and everything it asynchronously spawns and
restores the previously active context on return, and concurrently executing
units of work never observe each other's context.  The model gives each unit
of work its own stack of contexts carried by its continuation chain (which is
exactly what `AsyncLocalStorage` propagates), with no state shared between
units of work. -/

/-- One context-propagation step inside a single unit of work: enter a
`runWithUser` scope, leave it, or read `cls.get('userId')` of the currently
active context. -/
inductive ClsOp where
  | enter (userId : String)
  | exitScope
  | readCur
deriving DecidableEq, Repr

/-- The value `cls.get('userId')` returns for a stack of active contexts:
the top context's entry, `undefined` when no context is active. -/
def currentUserId (stack : List ClsStore) : JSString :=
  match stack with
  | [] => .undefined
  | c :: _ => c.getUserId

/-- Run a sequence of context operations over a context stack, collecting
the value returned by every read. -/
def clsExec (stack : List ClsStore) : List ClsOp → List ClsStore × List JSString
  | [] => (stack, [])
  | .enter u :: ops => clsExec (runWithUserStore u :: stack) ops
  | .exitScope :: ops =>
      match stack with
      | [] => clsExec [] ops
      | _ :: rest => clsExec rest ops
  | .readCur :: ops =>
      let (finalStack, reads) := clsExec stack ops
      (finalStack, currentUserId stack :: reads)

/-- State of two concurrently executing units of work: each carries the
context its `runWithUser` created for its own continuation chain, plus the
values its reads have observed. -/
structure TwoTasks where
  ctxA : ClsStore
  ctxB : ClsStore
  obsA : List JSString
  obsB : List JSString
deriving DecidableEq, Repr

/-- One scheduler step: the chosen task performs a read of
`ContextPropagator.current()` from its own continuation. -/
def stepTask (pickA : Bool) (st : TwoTasks) : TwoTasks :=
  if pickA then { st with obsA := st.obsA ++ [st.ctxA.getUserId] }
  else { st with obsB := st.obsB ++ [st.ctxB.getUserId] }

/-- Run two units of work opened with `runWithUser a` and `runWithUser b`
under an arbitrary interleaving of their reads. -/
def runSchedule (a b : String) (sched : List Bool) : TwoTasks :=
  sched.foldl (fun st pickA => stepTask pickA st)
    { ctxA := runWithUserStore a, ctxB := runWithUserStore b
      obsA := [], obsB := [] }

/-! ## JSON serialization of the payload

`LogRedisService.publishEvent` serializes with `JSON.stringify(payload)` and
the subscriber's message handler recovers it with `JSON.parse(message)`
(log-redis.service.ts:52, 84).  Strings are modelled as lists of unicode
scalars; `JSON.stringify` emits the object's fields in insertion order
(`userId`, `url`, `method`, `responseTimeMs`) and escapes `"`, `\`, the short
control escapes, and the remaining control characters as `\u00xx`.  The
parser below is `JSON.parse` specialized to that object shape; numbers are
the modelled natural milliseconds. -/

/-- Lower-case hex digit, as `JSON.stringify` uses in `\u00xx` escapes. -/
def hexDigitChar (n : Nat) : Char :=
  if n < 10 then Char.ofNat (48 + n) else Char.ofNat (87 + n)

/-- The escape `JSON.stringify` applies to one character of a string value. -/
def escapeChar (c : Char) : List Char :=
  if c = '"' then ['\\', '"']
  else if c = '\\' then ['\\', '\\']
  else if c = '\x08' then ['\\', 'b']
  else if c = '\x0c' then ['\\', 'f']
  else if c = '\n' then ['\\', 'n']
  else if c = '\r' then ['\\', 'r']
  else if c = '\t' then ['\\', 't']
  else if c.toNat < 32 then
    ['\\', 'u', '0', '0', hexDigitChar (c.toNat / 16), hexDigitChar (c.toNat % 16)]
  else [c]

/-- Escape every character of a string body. -/
def escapeString (s : List Char) : List Char :=
  s.foldr (fun c r => escapeChar c ++ r) []

/-- A JSON string literal: quote, escaped body, quote. -/
def strLit (s : String) : List Char :=
  '"' :: (escapeString s.data ++ ['"'])

/-- Decimal digit character for `n % 10`. -/
def digitChar (n : Nat) : Char :=
  Char.ofNat (48 + n % 10)

/-- Decimal digits of a natural number, most significant first, as
`JSON.stringify` prints an integral number. -/
def natDigits (n : Nat) : List Char :=
  if n < 10 then [digitChar n]
  else natDigits (n / 10) ++ [digitChar (n % 10)]
decreasing_by exact Nat.div_lt_self (by omega) (by omega)

/-- `JSON.stringify` of an `ActivityLogPayload`
(log-redis.service.ts:84): the four fields in declaration order. -/
def stringifyPayload (p : ActivityLogPayload) : List Char :=
  '{' :: (strLit "userId" ++ (':' :: (strLit p.userId ++ (',' ::
    (strLit "url" ++ (':' :: (strLit p.url ++ (',' ::
    (strLit "method" ++ (':' :: (strLit p.method ++ (',' ::
    (strLit "responseTimeMs" ++ (':' :: (natDigits p.responseTimeMs ++ ['}'])))))))))))))))

/-- Value of a hex digit character accepted by `JSON.parse` in `\uXXXX`. -/
def hexVal (c : Char) : Option Nat :=
  if 48 ≤ c.toNat ∧ c.toNat ≤ 57 then some (c.toNat - 48)
  else if 97 ≤ c.toNat ∧ c.toNat ≤ 102 then some (c.toNat - 87)
  else if 65 ≤ c.toNat ∧ c.toNat ≤ 70 then some (c.toNat - 55)
  else none

/-- `JSON.parse` string-body scanning after the opening quote: returns the
decoded body and the remaining input, handling every escape `JSON.parse`
accepts. -/
def parseStrBody (l : List Char) (acc : List Char) : Option (List Char × List Char) :=
  match l with
  | [] => none
  | c :: rest =>
    if c = '"' then some (acc.reverse, rest)
    else if c = '\\' then
      match rest with
      | [] => none
      | e :: rest2 =>
        if e = '"' then parseStrBody rest2 ('"' :: acc)
        else if e = '\\' then parseStrBody rest2 ('\\' :: acc)
        else if e = '/' then parseStrBody rest2 ('/' :: acc)
        else if e = 'b' then parseStrBody rest2 ('\x08' :: acc)
        else if e = 'f' then parseStrBody rest2 ('\x0c' :: acc)
        else if e = 'n' then parseStrBody rest2 ('\n' :: acc)
        else if e = 'r' then parseStrBody rest2 ('\r' :: acc)
        else if e = 't' then parseStrBody rest2 ('\t' :: acc)
        else if e = 'u' then
          match rest2 with
          | h1 :: h2 :: h3 :: h4 :: rest3 =>
            match hexVal h1, hexVal h2, hexVal h3, hexVal h4 with
            | some a, some b, some c2, some d =>
                parseStrBody rest3 (Char.ofNat (((a * 16 + b) * 16 + c2) * 16 + d) :: acc)
            | _, _, _, _ => none
          | _ => none
        else none
    else parseStrBody rest (c :: acc)

/-- A JSON string literal parse: expects the opening quote, then scans the
body. -/
def parseStringLit (l : List Char) : Option (List Char × List Char) :=
  match l with
  | c :: rest => if c = '"' then parseStrBody rest [] else none
  | [] => none

/-- Decimal digit test on characters. -/
def isDigitChar (c : Char) : Bool :=
  48 ≤ c.toNat && c.toNat ≤ 57

/-- Greedy decimal-number scan of `JSON.parse`, with accumulator. -/
def parseNatAux (l : List Char) (acc : Nat) : Nat × List Char :=
  match l with
  | [] => (acc, [])
  | c :: rest =>
    if isDigitChar c then parseNatAux rest (acc * 10 + (c.toNat - 48))
    else (acc, c :: rest)

/-- Consume one expected punctuation character. -/
def expectChar (c : Char) (l : List Char) : Option (List Char) :=
  match l with
  | x :: rest => if x = c then some rest else none
  | [] => none

/-- One string-valued field `"key":"value"`, with the expected key. -/
def parseStrField (key : String) (l : List Char) : Option (List Char × List Char) :=
  (parseStringLit l).bind fun k =>
  if k.1 = key.data then
    (expectChar ':' k.2).bind fun l2 => parseStringLit l2
  else none

/-- One number-valued field `"key":n`, with the expected key. -/
def parseNatField (key : String) (l : List Char) : Option (Nat × List Char) :=
  (parseStringLit l).bind fun k =>
  if k.1 = key.data then
    (expectChar ':' k.2).bind fun l2 => some (parseNatAux l2 0)
  else none

/-- `JSON.parse` specialized to the object shape `stringifyPayload`
produces: four fields with the payload's keys in declaration order, the
first three string-valued and the last one a number. -/
def parsePayload (l : List Char) : Option ActivityLogPayload :=
  (expectChar '{' l).bind fun l1 =>
  (parseStrField "userId" l1).bind fun p1 =>
  (expectChar ',' p1.2).bind fun l2 =>
  (parseStrField "url" l2).bind fun p2 =>
  (expectChar ',' p2.2).bind fun l3 =>
  (parseStrField "method" l3).bind fun p3 =>
  (expectChar ',' p3.2).bind fun l4 =>
  (parseNatField "responseTimeMs" l4).bind fun p4 =>
  (expectChar '}' p4.2).bind fun l5 =>
  if l5 = [] then
    some { userId := String.mk p1.1, url := String.mk p2.1,
           method := String.mk p3.1, responseTimeMs := p4.1 }
  else none

/-! ## `LogRedisService` (`log-redis.service.ts`) -/

/-- The fixed Redis channel (`channelName` in log-redis.service.ts:11). -/
def redisChannelName : String := "activity-log-events"

/-- `LogRedisService.publishEvent` (log-redis.service.ts:82-90): serializes
the payload and publishes it on the fixed channel; failures are caught and
logged, so the model is the message actually offered to the broker. -/
def publishEvent (p : ActivityLogPayload) : String × List Char :=
  (redisChannelName, stringifyPayload p)

/-- The subscriber's message handler installed in `onModuleInit`
(log-redis.service.ts:49-60): for a message on the subscribed channel,
`JSON.parse` it and re-emit it on the local EventBus; a parse failure is
caught (nothing is emitted).  Messages on other channels are ignored.
The returned list is what gets emitted on the local EventBus. -/
def receiverEmits (channel : String) (message : List Char) : List ActivityLogPayload :=
  if channel = redisChannelName then
    match parsePayload message with
    | some p => [p]
    | none => []
  else []

/-! ## `InsertLogSniffer` (`libs/session-sniffer/src/session-sniffer.insert.ts`)

The two sink writes are modelled as externally supplied outcomes
(`Except String Unit`); the handler's own control flow — two separate
try/catch blocks, each with its own log message — is translated from the
source.  The Elasticsearch index name is derived from
`new Date().toISOString().split('T')[0]`, i.e. the UTC calendar date of the
write instant; the civil-from-days computation below models ECMAScript's
proleptic-Gregorian UTC calendar. -/

/-- UTC calendar date `(year, month, day)` for a count of days since the
Unix epoch (proleptic Gregorian, as `Date.prototype.toISOString` uses). -/
def civilFromDays (days : Nat) : Nat × Nat × Nat :=
  let z := days + 719468
  let era := z / 146097
  let doe := z % 146097
  let yoe := (doe - doe / 1460 + doe / 36524 - doe / 146096) / 365
  let y := yoe + era * 400
  let doy := doe - (365 * yoe + yoe / 4 - yoe / 100)
  let mp := (5 * doy + 2) / 153
  let d := doy - (153 * mp + 2) / 5 + 1
  let m := if mp < 10 then mp + 3 else mp - 9
  (if m ≤ 2 then y + 1 else y, m, d)

/-- UTC calendar date of an epoch instant in milliseconds. -/
def utcDate (tMs : Nat) : Nat × Nat × Nat :=
  civilFromDays (tMs / 86400000)

/-- Four-digit zero-padded decimal, as `toISOString` prints the year. -/
def pad4 (n : Nat) : List Char :=
  [digitChar (n / 1000), digitChar (n / 100), digitChar (n / 10), digitChar n]

/-- Two-digit zero-padded decimal, as `toISOString` prints month and day. -/
def pad2 (n : Nat) : List Char :=
  [digitChar (n / 10), digitChar n]

/-- `YYYY-MM-DD` formatting of a calendar date. -/
def formatDate (ymd : Nat × Nat × Nat) : List Char :=
  pad4 ymd.1 ++ '-' :: (pad2 ymd.2.1 ++ '-' :: pad2 ymd.2.2)

/-- `new Date().toISOString().split('T')[0]` at epoch instant `tMs`
(session-sniffer.insert.ts:40). -/
def isoDatePart (tMs : Nat) : List Char :=
  formatDate (utcDate tMs)

/-- The Elasticsearch destination name
(session-sniffer.insert.ts:41). -/
def indexName (tMs : Nat) : List Char :=
  "activity-logs-".data ++ isoDatePart tMs

/-- Everything observable about one `handleLogEvent` run: what each sink
write ran to (`none` when not attempted), the `userId` placed in the fresh
CLS scope wrapping the primary save, the Elasticsearch destination used,
and the log messages.  Log messages are the source's fixed message texts. -/
structure HandlerTrace where
  dbAttempt : Option (Except String Unit)
  dbClsUserId : Option String
  esAttempt : Option (Except String Unit)
  esDest : Option (List Char)
  logs : List String
deriving Repr

/-- `InsertLogSniffer.handleLogEvent` (session-sniffer.insert.ts:24-57):
first try/catch saves to MariaDB inside `cls.run` with the payload's
`userId`; second, independent try/catch indexes into Elasticsearch under
the date-derived destination when the service reference is set.  Each catch
only logs.  The second component is the handler's own outcome, always `ok`:
no exception escapes into the emitting unit of work. -/
def handleLogEvent (dbWrite esWrite : Except String Unit) (esConfigured : Bool)
    (nowMs : Nat) (p : ActivityLogPayload) : HandlerTrace × Except String Unit :=
  let logs0 := ["Caught log event"]
  let dbLogs :=
    match dbWrite with
    | .ok _ => ["Save to MariaDB"]
    | .error _ => ["Failed to save activity log to MariaDB"]
  let dest := indexName nowMs
  let esPart :
      Option (Except String Unit) × Option (List Char) × List String :=
    if esConfigured then
      (some esWrite, some dest,
        match esWrite with
        | .ok _ => ["Saved to Elasticsearch"]
        | .error _ => ["Elasticsearch not available, skipping ES save"])
    else (none, some dest, [])
  ({ dbAttempt := some dbWrite
     dbClsUserId := some p.userId
     esAttempt := esPart.1
     esDest := esPart.2.1
     logs := logs0 ++ dbLogs ++ esPart.2.2 }, .ok ())

/-! ## Helper lemmas -/

theorem Char.toNat_ofNat_of_lt {n : Nat} (h : n < 55296) : (Char.ofNat n).toNat = n := by
  have hv : n.isValidChar := Or.inl h
  rw [Char.ofNat, dif_pos hv]
  rfl

theorem toNat_digitChar (n : Nat) : (digitChar n).toNat = 48 + n % 10 := by
  have h : 48 + n % 10 < 55296 := by omega
  simpa [digitChar] using Char.toNat_ofNat_of_lt h

theorem isDigitChar_digitChar (n : Nat) : isDigitChar (digitChar n) = true := by
  simp [isDigitChar, toNat_digitChar]
  omega

theorem hexVal_hexDigitChar {n : Nat} (h : n < 16) :
    hexVal (hexDigitChar n) = some n := by
  by_cases h10 : n < 10
  · have ht : (Char.ofNat (48 + n)).toNat = 48 + n := Char.toNat_ofNat_of_lt (by omega)
    simp only [hexVal, hexDigitChar, if_pos h10, ht]
    rw [if_pos ⟨by omega, by omega⟩]
    congr 1
    omega
  · have ht : (Char.ofNat (87 + n)).toNat = 87 + n := Char.toNat_ofNat_of_lt (by omega)
    simp only [hexVal, hexDigitChar, if_neg h10, ht]
    rw [if_neg (by omega), if_pos ⟨by omega, by omega⟩]
    congr 1
    omega

theorem digitChar_inj_mod {a b : Nat} (h : digitChar a = digitChar b) :
    a % 10 = b % 10 := by
  have ha := toNat_digitChar a
  have hb := toNat_digitChar b
  rw [h] at ha
  omega

theorem parseStrBody_escapeChar (c : Char) (t acc : List Char) :
    parseStrBody (escapeChar c ++ t) acc = parseStrBody t (c :: acc) := by
  unfold escapeChar
  split_ifs with h1 h2 h3 h4 h5 h6 h7 h8
  · subst h1; rw [List.cons_append, List.cons_append, List.nil_append, parseStrBody.eq_def]; simp
  · subst h2; rw [List.cons_append, List.cons_append, List.nil_append, parseStrBody.eq_def]; simp
  · subst h3; rw [List.cons_append, List.cons_append, List.nil_append, parseStrBody.eq_def]; simp
  · subst h4; rw [List.cons_append, List.cons_append, List.nil_append, parseStrBody.eq_def]; simp
  · subst h5; rw [List.cons_append, List.cons_append, List.nil_append, parseStrBody.eq_def]; simp
  · subst h6; rw [List.cons_append, List.cons_append, List.nil_append, parseStrBody.eq_def]; simp
  · subst h7; rw [List.cons_append, List.cons_append, List.nil_append, parseStrBody.eq_def]; simp
  · have hv0 : hexVal '0' = some 0 := by decide
    have hv1 : hexVal (hexDigitChar (c.toNat / 16)) = some (c.toNat / 16) :=
      hexVal_hexDigitChar (by omega)
    have hv2 : hexVal (hexDigitChar (c.toNat % 16)) = some (c.toNat % 16) :=
      hexVal_hexDigitChar (by omega)
    rw [parseStrBody.eq_def]
    simp [hv0, hv1, hv2]
    rw [show c.toNat / 16 * 16 + c.toNat % 16 = c.toNat by omega, Char.ofNat_toNat]
  · rw [List.cons_append, List.nil_append, parseStrBody.eq_def]
    simp [h1, h2]

theorem parseStrBody_escapeString (s : List Char) (t acc : List Char) :
    parseStrBody (escapeString s ++ ('"' :: t)) acc = some (acc.reverse ++ s, t) := by
  induction s generalizing acc with
  | nil =>
      rw [show escapeString [] = [] from rfl, List.nil_append, parseStrBody.eq_def]
      simp
  | cons c s ih =>
      rw [show escapeString (c :: s) = escapeChar c ++ escapeString s from rfl,
        List.append_assoc, parseStrBody_escapeChar, ih]
      simp

theorem parseStringLit_strLit (s : String) (t : List Char) :
    parseStringLit (strLit s ++ t) = some (s.data, t) := by
  have h : strLit s ++ t = '"' :: (escapeString s.data ++ ('"' :: t)) := by
    simp [strLit]
  rw [h]
  show (if ('"' : Char) = '"' then parseStrBody (escapeString s.data ++ ('"' :: t)) [] else none)
      = some (s.data, t)
  rw [if_pos rfl, parseStrBody_escapeString]
  simp

def tenPow (n : Nat) : Nat :=
  if n < 10 then 10 else tenPow (n / 10) * 10
decreasing_by exact Nat.div_lt_self (by omega) (by omega)

theorem parseNatAux_natDigits (n : Nat) :
    ∀ t acc, parseNatAux (natDigits n ++ t) acc = parseNatAux t (acc * tenPow n + n) := by
  induction n using Nat.strong_induction_on with
  | _ n ih =>
    intro t acc
    by_cases h : n < 10
    · rw [natDigits, if_pos h, tenPow, if_pos h, List.cons_append, List.nil_append,
        parseNatAux.eq_def]
      simp [isDigitChar_digitChar, toNat_digitChar]
      congr 1
      omega
    · rw [natDigits, if_neg h, tenPow, if_neg h, List.append_assoc,
        ih (n / 10) (Nat.div_lt_self (by omega) (by omega)), List.cons_append, List.nil_append,
        parseNatAux.eq_def]
      simp [isDigitChar_digitChar, toNat_digitChar]
      have key : ∀ P : Nat, (acc * P + n / 10) * 10 + n % 10 = acc * (P * 10) + n := by
        intro P
        have h2 : n / 10 * 10 + n % 10 = n := by omega
        calc (acc * P + n / 10) * 10 + n % 10
            = acc * (P * 10) + (n / 10 * 10 + n % 10) := by ring
          _ = acc * (P * 10) + n := by rw [h2]
      rw [key]

theorem parseNatAux_stop (c : Char) (t : List Char) (acc : Nat)
    (h : isDigitChar c = false) : parseNatAux (c :: t) acc = (acc, c :: t) := by
  rw [parseNatAux.eq_def]
  simp [h]

theorem expectChar_cons (c : Char) (t : List Char) : expectChar c (c :: t) = some t := by
  simp [expectChar]

theorem parseStrField_encode (key v : String) (t : List Char) :
    parseStrField key (strLit key ++ (':' :: (strLit v ++ t))) = some (v.data, t) := by
  unfold parseStrField
  rw [parseStringLit_strLit]
  simp [expectChar, parseStringLit_strLit]

theorem parseNatField_encode (key : String) (n : Nat) (c : Char) (t : List Char)
    (hc : isDigitChar c = false) :
    parseNatField key (strLit key ++ (':' :: (natDigits n ++ (c :: t)))) = some (n, c :: t) := by
  unfold parseNatField
  rw [parseStringLit_strLit]
  simp [expectChar_cons, parseNatAux_natDigits, parseNatAux_stop, hc]

theorem parsePayload_stringifyPayload (p : ActivityLogPayload) :
    parsePayload (stringifyPayload p) = some p := by
  obtain ⟨⟨u⟩, ⟨url⟩, ⟨m⟩, rt⟩ := p
  have hnum := parseNatField_encode "responseTimeMs" rt '}' [] (by decide)
  simp only [stringifyPayload, parsePayload, expectChar_cons, Option.some_bind,
    parseStrField_encode, hnum]
  simp

theorem clsExec_replicate_read (k : Nat) :
    ∀ (c : ClsStore) (rest : List ClsStore),
      clsExec (c :: rest) (List.replicate k ClsOp.readCur ++ [ClsOp.exitScope]) =
        (rest, List.replicate k c.getUserId) := by
  induction k with
  | zero => intro c rest; simp [clsExec]
  | succ k ih =>
      intro c rest
      simp only [List.replicate_succ, List.cons_append, clsExec]
      simp [currentUserId, ih]

theorem clsExec_scope (st : List ClsStore) (u : String) (n : Nat) :
    clsExec st (ClsOp.enter u :: (List.replicate n ClsOp.readCur ++ [ClsOp.exitScope])) =
      (st, List.replicate n (JSString.str u)) := by
  have h1 : clsExec st (ClsOp.enter u :: (List.replicate n ClsOp.readCur ++ [ClsOp.exitScope]))
      = clsExec (runWithUserStore u :: st) (List.replicate n ClsOp.readCur ++ [ClsOp.exitScope]) := by
    simp [clsExec]
  rw [h1, clsExec_replicate_read]
  simp [runWithUserStore, ClsStore.getUserId]

theorem stepTask_ctxA (w : Bool) (st : TwoTasks) : (stepTask w st).ctxA = st.ctxA := by
  cases w <;> rfl

theorem stepTask_ctxB (w : Bool) (st : TwoTasks) : (stepTask w st).ctxB = st.ctxB := by
  cases w <;> rfl

theorem stepTask_obsA_mem (w : Bool) (st : TwoTasks) (v : JSString)
    (hv : v ∈ (stepTask w st).obsA) : v ∈ st.obsA ∨ v = st.ctxA.getUserId := by
  cases w <;> simp [stepTask] at hv <;> tauto

theorem stepTask_obsB_mem (w : Bool) (st : TwoTasks) (v : JSString)
    (hv : v ∈ (stepTask w st).obsB) : v ∈ st.obsB ∨ v = st.ctxB.getUserId := by
  cases w <;> simp [stepTask] at hv <;> tauto

theorem foldl_stepTask (a b : String) (sched : List Bool) (st : TwoTasks)
    (h1 : st.ctxA = runWithUserStore a) (h2 : st.ctxB = runWithUserStore b)
    (h3 : ∀ v ∈ st.obsA, v = JSString.str a) (h4 : ∀ v ∈ st.obsB, v = JSString.str b) :
    (∀ v ∈ (sched.foldl (fun s w => stepTask w s) st).obsA, v = JSString.str a) ∧
    (∀ v ∈ (sched.foldl (fun s w => stepTask w s) st).obsB, v = JSString.str b) := by
  induction sched generalizing st with
  | nil => exact ⟨h3, h4⟩
  | cons w rest ih =>
      simp only [List.foldl_cons]
      apply ih
      · rw [stepTask_ctxA, h1]
      · rw [stepTask_ctxB, h2]
      · intro v hv
        rcases stepTask_obsA_mem w st v hv with h | h
        · exact h3 v h
        · rw [h, h1]; rfl
      · intro v hv
        rcases stepTask_obsB_mem w st v hv with h | h
        · exact h4 v h
        · rw [h, h2]; rfl

theorem formatDate_inj {y1 m1 d1 y2 m2 d2 : Nat}
    (hy1 : y1 < 10000) (hy2 : y2 < 10000) (hm1 : m1 < 100) (hm2 : m2 < 100)
    (hd1 : d1 < 100) (hd2 : d2 < 100)
    (h : formatDate (y1, m1, d1) = formatDate (y2, m2, d2)) :
    y1 = y2 ∧ m1 = m2 ∧ d1 = d2 := by
  simp [formatDate, pad4, pad2] at h
  obtain ⟨e1, e2, e3, e4, e5, e6, e7, e8⟩ := h
  have g1 := digitChar_inj_mod e1
  have g2 := digitChar_inj_mod e2
  have g3 := digitChar_inj_mod e3
  have g4 := digitChar_inj_mod e4
  have g5 := digitChar_inj_mod e5
  have g6 := digitChar_inj_mod e6
  have g7 := digitChar_inj_mod e7
  have g8 := digitChar_inj_mod e8
  refine ⟨by omega, by omega, by omega⟩

/-! ## Concrete fixtures for counterexamples and witnesses -/

/-- A `POST` request by user `u1`, as in the spec's sample scenario. -/
def reqPost : Req :=
  { userId := JSString.str "u1", originalUrl := "/orders/7", method := "POST" }

/-- The payload the interceptor builds for `reqPost` at 42 elapsed ms. -/
def payload0 : ActivityLogPayload := buildPayload reqPost 42

/-- An audited record declaring both attribution fields. -/
def entity0 : EntityRec :=
  { hasCreatedBy := true, hasUpdatedBy := true,
    createdBy := JSString.null, updatedBy := JSString.null, rest := "row" }

/-! ## Claims -/

/-- C1 counterexample: with the Redis broadcast configured, a qualifying
(`POST`) request that completes successfully emits nothing on the local
EventBus at the point of original construction — the construction-point
delivery the claim asserts does not happen — and the receiver path does
deliver the locally originated event to the local EventBus, since the
subscriber re-emits every channel message including the instance's own. -/
theorem c1_counterexample :
    (intercept true reqPost 0 42 Outcome.success).localEmits = [] ∧
    (intercept true reqPost 0 42 Outcome.success).redisPublishes = [payload0] ∧
    receiverEmits redisChannelName (stringifyPayload payload0) = [payload0] := by
  refine ⟨rfl, rfl, ?_⟩
  simp [receiverEmits, parsePayload_stringifyPayload]

/-- C1 (amended): when the BroadcastChannel is configured, a locally
originated qualifying event is not delivered to the local EventBus at the
point of original construction at all; it is only published to Redis, and
the receiver path — which re-emits every message on the channel, locally
originated ones included — delivers it to the local EventBus exactly once. -/
theorem c1_redis_routing (req : Req) (start finish : Nat)
    (h : jsToUpperCase req.method ≠ "GET") :
    (intercept true req start finish Outcome.success).localEmits = [] ∧
    (intercept true req start finish Outcome.success).redisPublishes
      = [buildPayload req (finish - start)] ∧
    receiverEmits (publishEvent (buildPayload req (finish - start))).1
        (publishEvent (buildPayload req (finish - start))).2
      = [buildPayload req (finish - start)] := by
  refine ⟨?_, ?_, ?_⟩ <;>
    simp [intercept, interceptTap, h, publishEvent, receiverEmits,
      parsePayload_stringifyPayload]

/-- Witness for C1 (amended) at the concrete `POST` request. -/
theorem c1_redis_routing_witness :
    jsToUpperCase reqPost.method ≠ "GET" ∧
    (intercept true reqPost 0 42 Outcome.success).redisPublishes
      = [buildPayload reqPost 42] := by
  refine ⟨by decide, ?_⟩
  exact (c1_redis_routing reqPost 0 42 (by decide)).2.1

/-- C2 counterexample: a `POST` request whose wrapped handler exits with an
error produces no ActivityEvent at all — the `tap` next-callback does not
run on the error notification — refuting the claim that the completion hook
still fires on error exit. -/
theorem c2_counterexample :
    (intercept false reqPost 0 42 Outcome.error).built = [] ∧
    (intercept true reqPost 0 42 Outcome.error).built = [] :=
  ⟨rfl, rfl⟩

/-- C2 (amended): the completion callback is registered for next
notifications only, so an ActivityEvent (non-read-only verbs only, carrying
the elapsed wall-clock duration) is built exactly when the wrapped operation
completes successfully; on an error exit nothing is built. -/
theorem c2_error_behavior (cfg : Bool) (req : Req) (start finish : Nat) :
    (intercept cfg req start finish Outcome.error).built = [] ∧
    (intercept cfg req start finish Outcome.success).built =
      (if jsToUpperCase req.method = "GET" then []
       else [buildPayload req (finish - start)]) := by
  constructor
  · cases cfg <;> rfl
  · by_cases h : jsToUpperCase req.method = "GET" <;>
      cases cfg <;> simp [intercept, interceptTap, EmitResult.built, h]

/-- C3: with a present (truthy) actor id in the unit of work's context, the
pre-insert hook stamps both `createdBy` and `updatedBy` with it on a record
declaring both fields, and the pre-update hook stamps only `updatedBy`,
leaving `createdBy` and every other field unchanged. -/
theorem c3_stamping (cls : ClsStore) (u : String) (e : EntityRec)
    (hu : cls.getUserId = JSString.str u) (hne : u ≠ "")
    (hc : e.hasCreatedBy = true) (hup : e.hasUpdatedBy = true) :
    beforeInsert cls (some e)
      = some { e with createdBy := JSString.str u, updatedBy := JSString.str u } ∧
    beforeUpdate cls (some e) = some { e with updatedBy := JSString.str u } ∧
    (beforeUpdate cls (some e)).map EntityRec.createdBy = some e.createdBy := by
  refine ⟨?_, ?_, ?_⟩ <;>
    simp [beforeInsert, beforeUpdate, hu, JSString.truthy, hne, hc, hup]

/-- Witness for C3 with actor `u1` and a fresh record. -/
theorem c3_stamping_witness :
    beforeInsert (runWithUserStore "u1") (some entity0)
      = some { entity0 with createdBy := JSString.str "u1",
                            updatedBy := JSString.str "u1" } :=
  (c3_stamping (runWithUserStore "u1") "u1" entity0 rfl (by decide) rfl rfl).1

/-- C4: for every successfully completed request, exactly one ActivityEvent
is built when the upper-cased method differs from `GET`, and none when it is
`GET` in any letter casing. -/
theorem c4_read_filter (cfg : Bool) (req : Req) (start finish : Nat) :
    ((intercept cfg req start finish Outcome.success).built).length =
      (if jsToUpperCase req.method = "GET" then 0 else 1) := by
  by_cases h : jsToUpperCase req.method = "GET" <;>
    cases cfg <;> simp [intercept, interceptTap, EmitResult.built, h]

/-- C5: under every interleaving of two units of work opened with distinct
actor ids, each unit's reads of the current context return its own actor id
and never the other's; and a `runWith` scope (enter, reads, exit) leaves the
previously active context stack exactly as it was, every read inside seeing
the scope's actor id. -/
theorem c5_context_isolation (a b : String) (hab : a ≠ b) (sched : List Bool)
    (st : List ClsStore) (u : String) (n : Nat) :
    (∀ v ∈ (runSchedule a b sched).obsA, v = JSString.str a ∧ v ≠ JSString.str b) ∧
    (∀ v ∈ (runSchedule a b sched).obsB, v = JSString.str b ∧ v ≠ JSString.str a) ∧
    clsExec st (ClsOp.enter u :: (List.replicate n ClsOp.readCur ++ [ClsOp.exitScope])) =
      (st, List.replicate n (JSString.str u)) := by
  have hgood := foldl_stepTask a b sched
    { ctxA := runWithUserStore a, ctxB := runWithUserStore b, obsA := [], obsB := [] }
    rfl rfl (by simp) (by simp)
  refine ⟨?_, ?_, clsExec_scope st u n⟩
  · intro v hv
    have hva : v = JSString.str a := hgood.1 v hv
    subst hva
    simp [hab]
  · intro v hv
    have hvb : v = JSString.str b := hgood.2 v hv
    subst hvb
    refine ⟨rfl, ?_⟩
    intro hcontra
    injection hcontra with hba
    exact hab hba.symm

/-- Witness for C5 with actors `alice`, `bob` and a concrete interleaving. -/
theorem c5_context_isolation_witness :
    ("alice" : String) ≠ "bob" ∧
    (∀ v ∈ (runSchedule "alice" "bob" [true, false, true]).obsA,
      v = JSString.str "alice" ∧ v ≠ JSString.str "bob") := by
  refine ⟨by decide, ?_⟩
  exact (c5_context_isolation "alice" "bob" (by decide) [true, false, true] [] "sys" 2).1

/-- C6: for every received event the consumer attempts both sink writes
independently: the Elasticsearch write is attempted whatever the MariaDB
outcome, the MariaDB attempt is unaffected by the Elasticsearch outcome,
each failure is logged with its own distinct message, and the handler always
returns without throwing into the emitting unit of work. -/
theorem c6_sink_independence (dbW esW esW2 : Except String Unit) (now : Nat)
    (p : ActivityLogPayload) :
    (handleLogEvent dbW esW true now p).1.esAttempt = some esW ∧
    (handleLogEvent dbW esW true now p).1.dbAttempt = some dbW ∧
    (handleLogEvent dbW esW true now p).1.dbAttempt
      = (handleLogEvent dbW esW2 true now p).1.dbAttempt ∧
    (handleLogEvent dbW esW true now p).2 = Except.ok () ∧
    (∀ e, dbW = Except.error e →
      "Failed to save activity log to MariaDB"
        ∈ (handleLogEvent dbW esW true now p).1.logs) ∧
    (∀ e, esW = Except.error e →
      "Elasticsearch not available, skipping ES save"
        ∈ (handleLogEvent dbW esW true now p).1.logs) ∧
    "Failed to save activity log to MariaDB"
      ≠ "Elasticsearch not available, skipping ES save" := by
  refine ⟨rfl, rfl, rfl, rfl, ?_, ?_, by decide⟩
  · intro e he
    subst he
    simp [handleLogEvent]
  · intro e he
    subst he
    cases dbW <;> simp [handleLogEvent]

/-- Witness for C6 with both sinks failing. -/
theorem c6_sink_independence_witness :
    (handleLogEvent (Except.error "db down") (Except.error "es down") true 0
        payload0).1.esAttempt = some (Except.error "es down") ∧
    "Failed to save activity log to MariaDB"
      ∈ (handleLogEvent (Except.error "db down") (Except.error "es down") true 0
          payload0).1.logs := by
  refine ⟨(c6_sink_independence (Except.error "db down") (Except.error "es down")
    (Except.ok ()) 0 payload0).1, ?_⟩
  exact (c6_sink_independence (Except.error "db down") (Except.error "es down")
    (Except.ok ()) 0 payload0).2.2.2.2.1 "db down" rfl

/-- C7: the broadcast round trip is the identity: parsing the serialized
payload yields the same field values, and the receiver of the published
message re-emits exactly the original payload on the local EventBus. -/
theorem c7_roundtrip_identity (p : ActivityLogPayload) :
    parsePayload (stringifyPayload p) = some p ∧
    receiverEmits (publishEvent p).1 (publishEvent p).2 = [p] := by
  refine ⟨parsePayload_stringifyPayload p, ?_⟩
  simp [publishEvent, receiverEmits, parsePayload_stringifyPayload]

/-- C8: the Elasticsearch destination is the fixed text `activity-logs-`
followed by the UTC calendar date `YYYY-MM-DD` of the write instant, and two
writes on different UTC calendar dates go to different destinations. -/
theorem c8_destination (t1 t2 : Nat)
    (hne : utcDate t1 ≠ utcDate t2)
    (hy1 : (utcDate t1).1 < 10000) (hm1 : (utcDate t1).2.1 < 100)
    (hd1 : (utcDate t1).2.2 < 100)
    (hy2 : (utcDate t2).1 < 10000) (hm2 : (utcDate t2).2.1 < 100)
    (hd2 : (utcDate t2).2.2 < 100) :
    indexName t1 = "activity-logs-".data ++ formatDate (utcDate t1) ∧
    indexName t1 ≠ indexName t2 := by
  refine ⟨rfl, ?_⟩
  intro heq
  apply hne
  have h2 : formatDate (utcDate t1) = formatDate (utcDate t2) :=
    List.append_cancel_left
      (show "activity-logs-".data ++ formatDate (utcDate t1)
        = "activity-logs-".data ++ formatDate (utcDate t2) from heq)
  rcases hu1 : utcDate t1 with ⟨y1, m1, d1⟩
  rcases hu2 : utcDate t2 with ⟨y2, m2, d2⟩
  rw [hu1] at h2 hy1 hm1 hd1
  rw [hu2] at h2 hy2 hm2 hd2
  obtain ⟨ey, em, ed⟩ := formatDate_inj hy1 hy2 hm1 hm2 hd1 hd2 h2
  have ey2 : y1 = y2 := ey
  have em2 : m1 = m2 := em
  have ed2 : d1 = d2 := ed
  rw [ey2, em2, ed2]

/-- Witness for C8 at the spec's two instants, one second apart across the
UTC midnight between 2023-10-25 and 2023-10-26. -/
theorem c8_destination_witness :
    utcDate 1698278399000 ≠ utcDate 1698278401000 ∧
    indexName 1698278399000 ≠ indexName 1698278401000 := by
  refine ⟨by decide, ?_⟩
  exact (c8_destination 1698278399000 1698278401000 (by decide) (by decide)
    (by decide) (by decide) (by decide) (by decide) (by decide)).2

/-- C9: with an absent (falsy) actor id in the context, both hooks return
the record unchanged; modelling bodies wrapped in try/catch, they are total
and return normally. -/
theorem c9_absent_noop (cls : ClsStore) (ent : Option EntityRec)
    (h : cls.getUserId.truthy = false) :
    beforeInsert cls ent = ent ∧ beforeUpdate cls ent = ent := by
  constructor <;> simp [beforeInsert, beforeUpdate, h]

/-- Witness for C9 with a context in which the key was never set. -/
theorem c9_absent_noop_witness :
    (ClsStore.mk none).getUserId.truthy = false ∧
    beforeInsert (ClsStore.mk none) (some entity0) = some entity0 := by
  exact ⟨rfl, (c9_absent_noop (ClsStore.mk none) (some entity0) rfl).1⟩

/-- C10: the interceptor stores `null` (key present) when the extractor
returns `undefined`; the stamping hooks treat `undefined`, `null` and the
empty string identically as absent and stamp nothing; and the event builder
maps every falsy request user id, the empty string included, to
`ANONYMOUS`. -/
theorem c10_falsy_edges (v : JSString) (ent : Option EntityRec) (req : Req) (rt : Nat)
    (hv : v = JSString.undefined ∨ v = JSString.null ∨ v = JSString.str "")
    (hreq : req.userId = JSString.undefined ∨ req.userId = JSString.null ∨
      req.userId = JSString.str "") :
    clsUserIntercept JSString.undefined = { userId := some JSString.null } ∧
    beforeInsert { userId := some v } ent = ent ∧
    beforeUpdate { userId := some v } ent = ent ∧
    (buildPayload req rt).userId = "ANONYMOUS" := by
  have hv2 : JSString.truthy v = false := by
    rcases hv with h | h | h <;> subst h <;> rfl
  refine ⟨rfl, ?_, ?_, ?_⟩
  · simp [beforeInsert, ClsStore.getUserId, hv2]
  · simp [beforeUpdate, ClsStore.getUserId, hv2]
  · rcases hreq with h | h | h <;> simp [buildPayload, jsOrDefault, h]

/-- Witness for C10 at the empty-string edge. -/
theorem c10_falsy_edges_witness :
    beforeInsert { userId := some (JSString.str "") } (some entity0) = some entity0 ∧
    (buildPayload { userId := JSString.str "", originalUrl := "/u", method := "POST" }
        0).userId = "ANONYMOUS" := by
  refine ⟨(c10_falsy_edges (JSString.str "") (some entity0)
      { userId := JSString.str "", originalUrl := "/u", method := "POST" } 0
      (by simp) (by simp)).2.1,
    (c10_falsy_edges (JSString.str "") (some entity0)
      { userId := JSString.str "", originalUrl := "/u", method := "POST" } 0
      (by simp) (by simp)).2.2.2⟩
